import Mathlib

/-!
Verification development for the Kibana background-task subsystem and
auxiliary server utilities.  Pure functions of the source are embedded as
executable Lean definitions; host-library calls (lodash, datemath, the
rules client) are passed in as explicit function arguments so that the
theorems quantify over their behaviour.
-/

namespace Uptime

/-- A value that the `from` field of the timestamp range can carry:
either an absolute epoch-milliseconds number or a datemath string. -/
inductive FromBound where
  | num (t : Int)
  | str (s : String)
deriving DecidableEq, Repr

/-- Result of `getTimestampRange` in
`x-pack/plugins/uptime/server/lib/alerts/status_check.ts`. -/
structure TimestampRange where
  rangeTo : String
  rangeFrom : FromBound
deriving DecidableEq, Repr

/-- lodash `min` over a list possibly containing `undefined` entries:
`undefined` entries are skipped; the minimum of the defined numbers is
returned, or `undefined` when none is defined. -/
def lodashMin (xs : List (Option Int)) : Option Int :=
  (xs.filterMap id).foldl (fun acc x =>
    match acc with
    | none => some x
    | some m => some (min m x)) none

/-- Milliseconds in 24 hours, as subtracted by `moment.subtract('24', 'hours')`. -/
def hours24Ms : Int := 24 * 60 * 60 * 1000

/-- `getTimestampRange` of
`x-pack/plugins/uptime/server/lib/alerts/status_check.ts` (lines 44-59).
`parse` models `datemath.parse(s)?.valueOf()`: the epoch-milliseconds value
of the parsed datemath expression, or `none` when parsing fails. -/
def getTimestampRange (parse : String → Option Int)
    (ruleScheduleLookback timerangeLookback : String) : TimestampRange :=
  let scheduleIntervalAbsoluteTime := parse ruleScheduleLookback
  let defaultIntervalAbsoluteTime :=
    (parse timerangeLookback).map (fun t => t - hours24Ms)
  match lodashMin [scheduleIntervalAbsoluteTime, defaultIntervalAbsoluteTime] with
  | some v => { rangeTo := "now", rangeFrom := .num v }
  | none => { rangeTo := "now", rangeFrom := .str "now-24h" }

end Uptime

namespace Notifications

/-- The notification object returned by `readNotifications`: a sanitized
alert carrying an optional `id`; the rest of the alert is kept opaque in
`payload`. -/
structure NotificationAlert where
  id : Option String
  payload : String
deriving DecidableEq, Repr

/-- Error thrown by `rulesClient.delete`, carrying `err.output.statusCode`. -/
structure ClientError where
  statusCode : Nat
deriving DecidableEq, Repr

/-- `deleteNotifications` of
`detection_engine/notifications/delete_notifications.ts` (src/unnamed/part_005).
`read` models `readNotifications({rulesClient, id, ruleAlertId})`;
`del` models `rulesClient.delete({id})`.  A deletion by the notification's
own id propagates any error; a deletion by the caller-supplied id swallows
a 404 (returning `null`) and rethrows every other error. -/
def deleteNotifications
    (read : Option String → Option String → Option NotificationAlert)
    (del : String → Except ClientError Unit)
    (id ruleAlertId : Option String) :
    Except ClientError (Option NotificationAlert) :=
  match read id ruleAlertId with
  | none => .ok none
  | some notification =>
    match notification.id with
    | some nid =>
      match del nid with
      | .ok _ => .ok (some notification)
      | .error e => .error e
    | none =>
      match id with
      | some i =>
        match del i with
        | .ok _ => .ok (some notification)
        | .error e =>
          if e.statusCode = 404 then .ok none else .error e
      | none => .ok none

end Notifications

namespace EsQuery

/-- A JavaScript number-or-string value as it appears in `RangeFilterParams`
(`packages/kbn-es-query/src/filters/build_filters/range_filter.ts`):
finite numbers, the two infinities, `NaN`, or a string. -/
inductive RVal where
  | num (x : Int)
  | inf
  | negInf
  | nan
  | str (s : String)
deriving DecidableEq, Repr

/-- The keys of `RangeFilterParams` (range_filter.ts lines 39-47), each
optional.  `fromKey`/`toKey` stand for the JS keys `from`/`to` (`from` is a
Lean keyword); `format` is carried as a value like the others because
`mapValues` in `buildRangeFilter` maps over every present key. -/
structure RangeParams where
  gt : Option RVal := none
  gte : Option RVal := none
  lt : Option RVal := none
  lte : Option RVal := none
  fromKey : Option RVal := none
  toKey : Option RVal := none
  format : Option RVal := none
deriving DecidableEq, Repr

/-- `IndexPatternFieldBase`: the parts read by `buildRangeFilter` and
`getRangeScript`. -/
structure IndexPatternFieldBase where
  name : String
  type : String
  scripted : Bool
  script : Option String
  lang : Option String
deriving DecidableEq, Repr

/-- `IndexPatternBase`: only its `id` is read. -/
structure IndexPatternBase where
  id : Option String
deriving DecidableEq, Repr

/-- JS `parseFloat` applied to a number-or-string value: on numbers it is the
identity (numbers round-trip through their decimal string), on strings the
host behaviour is supplied by the oracle `pf`. -/
def parseFloatVal (pf : String → RVal) : RVal → RVal
  | .str s => pf s
  | v => v

/-- `mapValues(params, f)`: applies `f` to every present value, preserving
which keys are present. -/
def mapParams (f : RVal → RVal) (p : RangeParams) : RangeParams :=
  { gt := p.gt.map f, gte := p.gte.map f, lt := p.lt.map f, lte := p.lte.map f,
    fromKey := p.fromKey.map f, toKey := p.toKey.map f, format := p.format.map f }

/-- `mapValues(params, value => field.type === 'number' ? parseFloat(value) : value)`
(range_filter.ts line 135). -/
def coercedParams (pf : String → RVal) (fieldType : String) (p : RangeParams) :
    RangeParams :=
  if fieldType = "number" then mapParams (parseFloatVal pf) p else p

/-- `Math.abs(value) === Infinity` for a possibly-absent value.  `Math.abs`
coerces strings through `Number`, supplied by the oracle `toNumber`;
`Math.abs(undefined)` is `NaN`, never infinite. -/
def absIsInfinite (toNumber : String → RVal) : Option RVal → Bool
  | some .inf => true
  | some .negInf => true
  | some (.str s) =>
    match toNumber s with
    | .inf => true
    | .negInf => true
    | _ => false
  | _ => false

/-- The `totalInfinite` reduce step (range_filter.ts lines 140-152) for
`op = 'gt'`: the inspected key is `gt` when present, else `gte`; an infinite
value is counted and the key deleted. -/
def dropInfiniteLow (toNumber : String → RVal) (p : RangeParams) :
    Nat × RangeParams :=
  if p.gt.isSome then
    if absIsInfinite toNumber p.gt then (1, { p with gt := none }) else (0, p)
  else
    if absIsInfinite toNumber p.gte then (1, { p with gte := none }) else (0, p)

/-- The `totalInfinite` reduce step for `op = 'lt'`: the inspected key is
`lt` when present, else `lte`. -/
def dropInfiniteHigh (toNumber : String → RVal) (p : RangeParams) :
    Nat × RangeParams :=
  if p.lt.isSome then
    if absIsInfinite toNumber p.lt then (1, { p with lt := none }) else (0, p)
  else
    if absIsInfinite toNumber p.lte then (1, { p with lte := none }) else (0, p)

/-- The `operators` table (range_filter.ts lines 15-20). -/
def opSymbol : String → String
  | "gt" => ">"
  | "gte" => ">="
  | "lte" => "<="
  | "lt" => "<"
  | _ => ""

/-- The `comparators` painless snippets (range_filter.ts lines 21-26). -/
def comparatorSnippet : String → String
  | "gt" => "boolean gt(Supplier s, def v) \x7breturn s.get() > v\x7d"
  | "gte" => "boolean gte(Supplier s, def v) \x7breturn s.get() >= v\x7d"
  | "lte" => "boolean lte(Supplier s, def v) \x7breturn s.get() <= v\x7d"
  | "lt" => "boolean lt(Supplier s, def v) \x7breturn s.get() < v\x7d"
  | _ => ""

/-- The `dateComparators` painless snippets (range_filter.ts lines 28-33). -/
def dateComparatorSnippet : String → String
  | "gt" => "boolean gt(Supplier s, def v) \x7breturn s.get().toInstant().isAfter(Instant.parse(v))\x7d"
  | "gte" => "boolean gte(Supplier s, def v) \x7breturn !s.get().toInstant().isBefore(Instant.parse(v))\x7d"
  | "lte" => "boolean lte(Supplier s, def v) \x7breturn !s.get().toInstant().isAfter(Instant.parse(v))\x7d"
  | "lt" => "boolean lt(Supplier s, def v) \x7breturn s.get().toInstant().isBefore(Instant.parse(v))\x7d"
  | _ => ""

/-- `pickBy(params, (val, key) => key in operators)`: keeps only the four
operator keys. -/
def pickOperatorKeys (p : RangeParams) : RangeParams :=
  { gt := p.gt, gte := p.gte, lt := p.lt, lte := p.lte,
    fromKey := none, toKey := none, format := none }

/-- The present operator keys with their values, in the iteration order of
the `operators` table. -/
def presentOps (p : RangeParams) : List (String × RVal) :=
  (["gt", "gte", "lte", "lt"].filterMap fun k =>
    match k, p.gt, p.gte, p.lte, p.lt with
    | "gt", some v, _, _, _ => some ("gt", v)
    | "gte", _, some v, _, _ => some ("gte", v)
    | "lte", _, _, some v, _ => some ("lte", v)
    | "lt", _, _, _, some v => some ("lt", v)
    | _, _, _, _, _ => none)

/-- JS string rendering of a number-or-string value (used by the implicit
string concatenations of `formatValue` and the script sources). -/
def rvalText : RVal → String
  | .num x => toString x
  | .inf => "Infinity"
  | .negInf => "-Infinity"
  | .nan => "NaN"
  | .str s => s

/-- `formatValue` (range_filter.ts lines 108-109): joins
`operators[key] + val` over the script params with spaces. -/
def formatValue (p : RangeParams) : String :=
  String.intercalate " " ((presentOps p).map fun kv => opSymbol kv.1 ++ rvalText kv.2)

/-- The `script` object produced by `getRangeScript`, plus the `value`
entry that `buildRangeFilter` adds to its params in the scripted branch. -/
structure ScriptBlock where
  source : String
  lang : Option String
  scriptParams : RangeParams
  paramsValue : Option String
deriving DecidableEq, Repr

/-- `getRangeScript` (range_filter.ts lines 173-207): assembles the painless
or expression source over the known operator params.  Never raises. -/
def getRangeScript (pf : String → RVal) (field : IndexPatternFieldBase)
    (params : RangeParams) : ScriptBlock :=
  let knownParams :=
    if field.type = "number" then mapParams (parseFloatVal pf) (pickOperatorKeys params)
    else pickOperatorKeys params
  let scriptText := field.script.getD "undefined"
  let source :=
    if field.lang = some "painless" then
      let comp := fun k =>
        if field.type = "date" then dateComparatorSnippet k else comparatorSnippet k
      String.intercalate " " ((presentOps knownParams).map fun kv => comp kv.1) ++
        String.intercalate " && " ((presentOps knownParams).map fun kv =>
          kv.1 ++ "(() -> \x7b " ++ scriptText ++ " \x7d, params." ++ kv.1 ++ ")")
    else
      String.intercalate " && " ((presentOps knownParams).map fun kv =>
        "(" ++ scriptText ++ ")" ++ opSymbol kv.1 ++ kv.1)
  { source := source, lang := field.lang, scriptParams := knownParams,
    paramsValue := none }

/-- The filter's `meta`. -/
structure FilterMeta where
  index : Option String
  formattedValue : Option String
  field : Option String
deriving DecidableEq, Repr

/-- The result of `buildRangeFilter`: exactly one of the `match_all`,
`script` or `range` shapes. -/
structure RangeFilterResult where
  meta : FilterMeta
  matchAll : Bool
  script : Option ScriptBlock
  range : Option (String × RangeParams)
deriving DecidableEq, Repr

/-- The success path of `buildRangeFilter` after the mutual-exclusion checks
(range_filter.ts lines 140-167): counts and deletes infinite endpoints, then
selects the `match_all`, scripted, or plain range shape. -/
def buildRangeFilterOk (pf toNumber : String → RVal)
    (field : IndexPatternFieldBase) (p : RangeParams) (meta0 : FilterMeta) :
    RangeFilterResult :=
  let low := dropInfiniteLow toNumber p
  let high := dropInfiniteHigh toNumber low.2
  if low.1 + high.1 = 2 then
    { meta := { meta0 with field := some field.name }, matchAll := true,
      script := none, range := none }
  else if field.scripted then
    let sb := getRangeScript pf field high.2
    { meta := { meta0 with field := some field.name }, matchAll := false,
      script := some { sb with paramsValue := some (formatValue sb.scriptParams) },
      range := none }
  else
    { meta := meta0, matchAll := false, script := none,
      range := some (field.name, high.2) }

/-- `buildRangeFilter` (range_filter.ts lines 123-168).  `pf` models JS
`parseFloat` on strings and `toNumber` models the `Number` coercion done by
`Math.abs`.  Throws exactly on the two mutual-exclusion checks; `formattedValue`
is copied into `meta` only when truthy (non-empty). -/
def buildRangeFilter (pf toNumber : String → RVal)
    (field : IndexPatternFieldBase) (params : RangeParams)
    (indexPattern : IndexPatternBase) (formattedValue : Option String) :
    Except String RangeFilterResult :=
  let meta0 : FilterMeta :=
    { index := indexPattern.id,
      formattedValue :=
        match formattedValue with
        | some s => if s = "" then none else some s
        | none => none,
      field := none }
  let p1 := coercedParams pf field.type params
  if p1.gte.isSome && p1.gt.isSome then
    .error "gte and gt are mutually exclusive"
  else if p1.lte.isSome && p1.lt.isSome then
    .error "lte and lt are mutually exclusive"
  else
    .ok (buildRangeFilterOk pf toNumber field p1 meta0)

theorem coercedParams_gt_isSome (pf : String → RVal) (ty : String)
    (p : RangeParams) : (coercedParams pf ty p).gt.isSome = p.gt.isSome := by
  unfold coercedParams
  split <;> simp [mapParams]

theorem coercedParams_gte_isSome (pf : String → RVal) (ty : String)
    (p : RangeParams) : (coercedParams pf ty p).gte.isSome = p.gte.isSome := by
  unfold coercedParams
  split <;> simp [mapParams]

theorem coercedParams_lt_isSome (pf : String → RVal) (ty : String)
    (p : RangeParams) : (coercedParams pf ty p).lt.isSome = p.lt.isSome := by
  unfold coercedParams
  split <;> simp [mapParams]

theorem coercedParams_lte_isSome (pf : String → RVal) (ty : String)
    (p : RangeParams) : (coercedParams pf ty p).lte.isSome = p.lte.isSome := by
  unfold coercedParams
  split <;> simp [mapParams]

end EsQuery

/-- C8: `buildRangeFilter` raises an error exactly when its params contain
both `gte` and `gt`, or both `lte` and `lt`; for every other params value,
field, index pattern and optional formatted value it returns a filter
without raising. -/
theorem buildRangeFilter_error_iff (pf toNumber : String → EsQuery.RVal)
    (field : EsQuery.IndexPatternFieldBase) (params : EsQuery.RangeParams)
    (indexPattern : EsQuery.IndexPatternBase) (formattedValue : Option String) :
    (∃ e, EsQuery.buildRangeFilter pf toNumber field params indexPattern
        formattedValue = .error e) ↔
      ((params.gte.isSome ∧ params.gt.isSome) ∨
       (params.lte.isSome ∧ params.lt.isSome)) := by
  unfold EsQuery.buildRangeFilter
  simp only [EsQuery.coercedParams_gt_isSome, EsQuery.coercedParams_gte_isSome,
    EsQuery.coercedParams_lt_isSome, EsQuery.coercedParams_lte_isSome]
  split_ifs with h1 h2
  · simp only [Bool.and_eq_true,
      EsQuery.coercedParams_gt_isSome, EsQuery.coercedParams_gte_isSome] at h1
    simp [h1]
  · simp only [Bool.and_eq_true,
      EsQuery.coercedParams_lt_isSome, EsQuery.coercedParams_lte_isSome] at h2
    simp [h2]
  · simp only [Bool.and_eq_true,
      EsQuery.coercedParams_gt_isSome, EsQuery.coercedParams_gte_isSome] at h1
    simp only [Bool.and_eq_true,
      EsQuery.coercedParams_lt_isSome, EsQuery.coercedParams_lte_isSome] at h2
    constructor
    · rintro ⟨e, he⟩
      exact absurd he (by simp)
    · rintro (⟨ha, hb⟩ | ⟨ha, hb⟩)
      · exact absurd ⟨ha, hb⟩ h1
      · exact absurd ⟨ha, hb⟩ h2

/-- Concrete instance of C8: params with both `gte` and `gt` raise; the same
params without `gt` do not. -/
theorem buildRangeFilter_error_iff_witness :
    (∃ e, EsQuery.buildRangeFilter (fun _ => .nan) (fun _ => .nan)
      ⟨"bytes", "number", false, none, none⟩
      { gte := some (.num 0), gt := some (.num 1) } ⟨some "idx"⟩ none = .error e) ∧
    ¬ (∃ e, EsQuery.buildRangeFilter (fun _ => .nan) (fun _ => .nan)
      ⟨"bytes", "number", false, none, none⟩
      { gte := some (.num 0) } ⟨some "idx"⟩ none = .error e) := by
  constructor
  · exact (buildRangeFilter_error_iff (fun _ => .nan) (fun _ => .nan)
      ⟨"bytes", "number", false, none, none⟩
      { gte := some (.num 0), gt := some (.num 1) } ⟨some "idx"⟩ none).2
      (Or.inl (by constructor <;> rfl))
  · intro hcon
    have := (buildRangeFilter_error_iff (fun _ => .nan) (fun _ => .nan)
      ⟨"bytes", "number", false, none, none⟩
      { gte := some (.num 0) } ⟨some "idx"⟩ none).1 hcon
    simp at this

namespace TaskManager

/-- Modelled from the spec: lifecycle states of a Task Document (§3); the
implementing file `task_store.ts` is not under src/. -/
inductive TaskLifecycleState where
  | idle
  | claiming
  | running
  | failed
deriving DecidableEq, Repr

/-- Modelled from the spec: the claim-relevant attributes of a persisted
Task Document (§3): lifecycle state, owning process instance, retry time. -/
structure TaskDoc where
  state : TaskLifecycleState
  ownerId : Option String
  retryAt : Option Nat
deriving DecidableEq, Repr

/-- Modelled from the spec: a stored document paired with its
optimistic-concurrency version token (§4.1). -/
structure VersionedDoc where
  doc : TaskDoc
  version : Nat
deriving DecidableEq, Repr

/-- Modelled from the spec: errors of the Document Store Adapter (§4.1, §7):
a version mismatch yields `ConflictError`, a missing document is reported
separately. -/
inductive StoreError where
  | conflict
  | notFound
deriving DecidableEq, Repr

/-- Modelled from the spec: the versioned-document store (§4.1), an
association list from document id to versioned document. -/
def DocStore := List (String × VersionedDoc)

/-- Looks up a document by id. -/
def storeGet : List (String × VersionedDoc) → String → Option VersionedDoc
  | [], _ => none
  | (k, e) :: rest, id => if k = id then some e else storeGet rest id

/-- Replaces the document stored under an id. -/
def storeSet : List (String × VersionedDoc) → String → VersionedDoc →
    List (String × VersionedDoc)
  | [], _, _ => []
  | (k, e) :: rest, id, e2 =>
    if k = id then (k, e2) :: rest else (k, e) :: storeSet rest id e2

/-- Modelled from the spec: `update(id, doc, expectedVersion) -> newVersion |
ConflictError` (§4.1): the mutation succeeds only when the supplied version
token matches the stored one, bumping the token; a mismatch yields
`ConflictError` and leaves the store unchanged. -/
def updateWithVersionCheck (s : List (String × VersionedDoc)) (id : String)
    (newDoc : TaskDoc) (expectedVersion : Nat) :
    Except StoreError (List (String × VersionedDoc) × Nat) :=
  match storeGet s id with
  | none => .error .notFound
  | some e =>
    if e.version = expectedVersion then
      .ok (storeSet s id ⟨newDoc, e.version + 1⟩, e.version + 1)
    else
      .error .conflict

/-- Modelled from the spec: the claim update applied to a candidate (§4.4
step 2): `state=claiming, ownerId=self, retryAt=now+claimTimeout`. -/
def claimUpdate (self : String) (now claimTimeout : Nat) : TaskDoc :=
  { state := .claiming, ownerId := some self,
    retryAt := some (now + claimTimeout) }

/-- Modelled from the spec: several process instances racing to claim the
same task (§5, §8): each instance attempts the version-checked claim update
with the version it read during the search phase; the store serializes the
updates in some order, here the list order. -/
def raceClaim (s : List (String × VersionedDoc)) (taskId : String)
    (readVersion now claimTimeout : Nat) :
    List String →
      List (String × VersionedDoc) × List (String × Except StoreError Nat)
  | [] => (s, [])
  | inst :: rest =>
    match updateWithVersionCheck s taskId (claimUpdate inst now claimTimeout)
        readVersion with
    | .ok (s2, v) =>
      let r := raceClaim s2 taskId readVersion now claimTimeout rest
      (r.1, (inst, .ok v) :: r.2)
    | .error e =>
      let r := raceClaim s taskId readVersion now claimTimeout rest
      (r.1, (inst, .error e) :: r.2)

/-- Whether a claim attempt outcome is a success. -/
def outcomeIsOk : Except StoreError Nat → Bool
  | .ok _ => true
  | .error _ => false

theorem storeGet_storeSet (s : List (String × VersionedDoc)) (id : String)
    (e0 e2 : VersionedDoc) (h : storeGet s id = some e0) :
    storeGet (storeSet s id e2) id = some e2 := by
  induction s with
  | nil => simp [storeGet] at h
  | cons kv rest ih =>
    obtain ⟨k, e⟩ := kv
    by_cases hk : k = id
    · simp [storeGet, storeSet, hk]
    · simp only [storeGet, if_neg hk] at h
      simp only [storeSet, if_neg hk, storeGet]
      exact ih h

theorem raceClaim_all_conflict (taskId : String)
    (readVersion now claimTimeout : Nat) (l : List String)
    (s : List (String × VersionedDoc)) (e : VersionedDoc)
    (hs : storeGet s taskId = some e) (hv : e.version ≠ readVersion) :
    (raceClaim s taskId readVersion now claimTimeout l).2 =
      l.map (fun j => (j, .error .conflict)) := by
  induction l with
  | nil => rfl
  | cons inst rest ih =>
    have hupd : updateWithVersionCheck s taskId
        (claimUpdate inst now claimTimeout) readVersion = .error .conflict := by
      unfold updateWithVersionCheck
      rw [hs]
      simp [hv]
    simp only [raceClaim, hupd, List.map]
    exact congrArg _ ih

end TaskManager

/-- C1: for a task document and any number of process instances racing the
version-checked claim update with the version read before the race, exactly
the first serialized attempt succeeds and every other instance observes a
`ConflictError`. -/
theorem raceClaim_no_double_claim (store : List (String × TaskManager.VersionedDoc))
    (taskId : String) (d : TaskManager.TaskDoc) (v now claimTimeout : Nat)
    (i : String) (rest : List String)
    (h : TaskManager.storeGet store taskId = some ⟨d, v⟩) :
    (TaskManager.raceClaim store taskId v now claimTimeout (i :: rest)).2 =
      (i, .ok (v + 1)) :: rest.map (fun j => (j, .error .conflict)) ∧
    ((TaskManager.raceClaim store taskId v now claimTimeout (i :: rest)).2.countP
      (fun o => TaskManager.outcomeIsOk o.2)) = 1 := by
  have hupd : TaskManager.updateWithVersionCheck store taskId
      (TaskManager.claimUpdate i now claimTimeout) v =
      .ok (TaskManager.storeSet store taskId
        ⟨TaskManager.claimUpdate i now claimTimeout, v + 1⟩, v + 1) := by
    unfold TaskManager.updateWithVersionCheck
    rw [h]
    simp
  have hget2 : TaskManager.storeGet
      (TaskManager.storeSet store taskId
        ⟨TaskManager.claimUpdate i now claimTimeout, v + 1⟩) taskId =
      some ⟨TaskManager.claimUpdate i now claimTimeout, v + 1⟩ :=
    TaskManager.storeGet_storeSet store taskId ⟨d, v⟩ _ h
  have hrest := TaskManager.raceClaim_all_conflict taskId v now claimTimeout rest
    (TaskManager.storeSet store taskId
      ⟨TaskManager.claimUpdate i now claimTimeout, v + 1⟩)
    ⟨TaskManager.claimUpdate i now claimTimeout, v + 1⟩ hget2 (by simp)
  have hmain : (TaskManager.raceClaim store taskId v now claimTimeout (i :: rest)).2 =
      (i, .ok (v + 1)) :: rest.map (fun j => (j, .error .conflict)) := by
    simp only [TaskManager.raceClaim, hupd]
    exact congrArg _ hrest
  refine ⟨hmain, ?_⟩
  rw [hmain]
  simp only [List.countP_cons, List.countP_map]
  have hzero : rest.countP
      ((fun o => TaskManager.outcomeIsOk o.2) ∘ fun j => (j, .error .conflict)) = 0 := by
    apply List.countP_eq_zero.mpr
    intro a _
    simp [TaskManager.outcomeIsOk, Function.comp]
  rw [hzero]
  simp [TaskManager.outcomeIsOk]

/-- Concrete instance of C1: three instances race for one idle task; the
first claim succeeds, the others observe conflicts. -/
theorem raceClaim_no_double_claim_witness :
    (TaskManager.raceClaim [("task:1", ⟨⟨.idle, none, none⟩, 0⟩)] "task:1" 0 100 30
        ["kibana-a", "kibana-b", "kibana-c"]).2 =
      [("kibana-a", .ok 1), ("kibana-b", .error .conflict),
       ("kibana-c", .error .conflict)] := by
  have h := (raceClaim_no_double_claim [("task:1", ⟨⟨.idle, none, none⟩, 0⟩)]
    "task:1" ⟨.idle, none, none⟩ 0 100 30 "kibana-a" ["kibana-b", "kibana-c"]
    (by rfl)).1
  simpa using h

namespace TaskManager

/-- Modelled from the spec: outcome of the version-checked update for one
candidate during the claim phase (§4.4): success with a new version token,
or loss of the optimistic-concurrency race. -/
inductive ClaimAttemptOutcome where
  | success (newVersion : Nat)
  | conflict
deriving DecidableEq, Repr

/-- Whether a claim attempt succeeded. -/
def ClaimAttemptOutcome.isSuccess : ClaimAttemptOutcome → Bool
  | .success _ => true
  | .conflict => false

/-- Modelled from the spec: the record of a claim phase (§4.4): the
documents successfully claimed, and the log of candidates attempted. -/
structure ClaimPhaseResult where
  claimed : List String
  attempted : List String
deriving DecidableEq, Repr

/-- Modelled from the spec: the Task Store claim phase (§4.4 steps 2-3),
`task_store.ts` not being under src/: each candidate's claim update is
attempted exactly once; a `ConflictError` is treated as "not claimed" and
silently skipped without retry within the cycle, never turning the cycle
into an error. -/
def claimCandidates (attempt : String → ClaimAttemptOutcome) :
    List String → Except String ClaimPhaseResult
  | [] => .ok { claimed := [], attempted := [] }
  | c :: rest =>
    match claimCandidates attempt rest with
    | .error e => .error e
    | .ok r =>
      match attempt c with
      | .success _ =>
        .ok { claimed := c :: r.claimed, attempted := c :: r.attempted }
      | .conflict =>
        .ok { claimed := r.claimed, attempted := c :: r.attempted }

end TaskManager

/-- C3: the claim phase never surfaces a conflict as a cycle error; every
candidate is attempted exactly once (no retry within the cycle), and the
claimed documents are exactly the candidates whose update succeeded — a
possibly strict subset of the candidates. -/
theorem claimCandidates_conflicts_skipped
    (attempt : String → TaskManager.ClaimAttemptOutcome) (cs : List String) :
    TaskManager.claimCandidates attempt cs =
      .ok { claimed := cs.filter (fun c => (attempt c).isSuccess),
            attempted := cs } ∧
    (cs.filter (fun c => (attempt c).isSuccess)).length ≤ cs.length := by
  refine ⟨?_, List.length_filter_le _ _⟩
  induction cs with
  | nil => rfl
  | cons c rest ih =>
    simp only [TaskManager.claimCandidates, ih]
    cases hc : attempt c with
    | success nv =>
      simp [List.filter_cons, TaskManager.ClaimAttemptOutcome.isSuccess, hc]
    | conflict =>
      simp [List.filter_cons, TaskManager.ClaimAttemptOutcome.isSuccess, hc]

/-- Concrete instance of C3: with the middle candidate lost to a conflict,
the cycle succeeds and claims exactly the other two. -/
theorem claimCandidates_conflicts_skipped_witness :
    TaskManager.claimCandidates
      (fun c => if c = "t2" then .conflict else .success 5)
      ["t1", "t2", "t3"] =
      .ok { claimed := ["t1", "t3"], attempted := ["t1", "t2", "t3"] } := by
  have h := (claimCandidates_conflicts_skipped
    (fun c => if c = "t2" then .conflict else .success 5) ["t1", "t2", "t3"]).1
  rw [h]
  rfl

namespace TaskManager

/-- Modelled from the spec: an in-flight task tracked by the Worker Pool
(§4.5), with the cost its task type consumes from the capacity budget;
the implementing `task_pool.ts` is not under src/. -/
structure InFlightTask where
  id : String
  cost : Nat
deriving DecidableEq, Repr

/-- Modelled from the spec: the Worker Pool (§4.5): the current capacity
ceiling read from Managed Configuration, and the in-flight tasks. -/
structure WorkerPool where
  maxCapacity : Nat
  inFlight : List InFlightTask
deriving DecidableEq, Repr

/-- Modelled from the spec: the capacity counter — the sum of the costs of
the in-flight tasks (§4.5). -/
def usedCapacity (p : WorkerPool) : Nat :=
  (p.inFlight.map (fun t => t.cost)).sum

/-- Modelled from the spec: `run(taskInstance)` admission (§4.5): the pool
refuses to start new work once the next task's cost would exceed the
current ceiling. -/
def attemptToRun (p : WorkerPool) (t : InFlightTask) : Option WorkerPool :=
  if usedCapacity p + t.cost ≤ p.maxCapacity then
    some { p with inFlight := t :: p.inFlight }
  else
    none

/-- Removes the first in-flight task with the given id. -/
def removeFirstById : List InFlightTask → String → List InFlightTask
  | [], _ => []
  | t :: rest, tid => if t.id = tid then rest else t :: removeFirstById rest tid

/-- Modelled from the spec: on completion (success, error, or timeout) the
pool releases the task's cost (§4.5). -/
def releaseTask (p : WorkerPool) (tid : String) : WorkerPool :=
  { p with inFlight := removeFirstById p.inFlight tid }

/-- Modelled from the spec: the reachable Worker Pool states: the pool
starts empty and evolves by admitted runs and releases. -/
inductive PoolReachable : WorkerPool → Prop where
  | init (c : Nat) : PoolReachable ⟨c, []⟩
  | run (p p2 : WorkerPool) (t : InFlightTask) (h : attemptToRun p t = some p2)
      (hp : PoolReachable p) : PoolReachable p2
  | release (p : WorkerPool) (tid : String) (hp : PoolReachable p) :
      PoolReachable (releaseTask p tid)

theorem removeFirstById_cost_le (l : List InFlightTask) (tid : String) :
    ((removeFirstById l tid).map (fun t => t.cost)).sum ≤
      (l.map (fun t => t.cost)).sum := by
  induction l with
  | nil => simp [removeFirstById]
  | cons t rest ih =>
    by_cases ht : t.id = tid
    · simp only [removeFirstById, if_pos ht, List.map, List.sum_cons]
      omega
    · simp only [removeFirstById, if_neg ht, List.map, List.sum_cons]
      omega

end TaskManager

/-- C2: in every reachable worker-pool state the sum of the in-flight task
costs never exceeds the capacity ceiling, and `run` refuses to start a task
whose cost would push the in-flight sum above the ceiling. -/
theorem workerPool_capacity_invariant (p : TaskManager.WorkerPool) :
    (TaskManager.PoolReachable p →
      TaskManager.usedCapacity p ≤ p.maxCapacity) ∧
    (∀ t, p.maxCapacity < TaskManager.usedCapacity p + t.cost →
      TaskManager.attemptToRun p t = none) := by
  constructor
  · intro hreach
    induction hreach with
    | init c => simp [TaskManager.usedCapacity]
    | run q q2 t h hq ih =>
      unfold TaskManager.attemptToRun at h
      by_cases hc : TaskManager.usedCapacity q + t.cost ≤ q.maxCapacity
      · rw [if_pos hc] at h
        cases h
        simpa [TaskManager.usedCapacity, Nat.add_comm] using hc
      · rw [if_neg hc] at h
        cases h
    | release q tid hq ih =>
      calc TaskManager.usedCapacity (TaskManager.releaseTask q tid)
          ≤ TaskManager.usedCapacity q :=
            TaskManager.removeFirstById_cost_le q.inFlight tid
        _ ≤ q.maxCapacity := ih
  · intro t ht
    unfold TaskManager.attemptToRun
    rw [if_neg (by omega)]

/-- Concrete instance of C2: a pool that admitted a cost-4 task under a
ceiling of 10 satisfies the invariant and refuses a cost-7 task. -/
theorem workerPool_capacity_invariant_witness :
    TaskManager.usedCapacity ⟨10, [⟨"a", 4⟩]⟩ ≤ 10 ∧
    TaskManager.attemptToRun ⟨10, [⟨"a", 4⟩]⟩ ⟨"b", 7⟩ = none := by
  refine ⟨(workerPool_capacity_invariant ⟨10, [⟨"a", 4⟩]⟩).1 ?_,
    (workerPool_capacity_invariant ⟨10, [⟨"a", 4⟩]⟩).2 ⟨"b", 7⟩ (by decide)⟩
  exact TaskManager.PoolReachable.run ⟨10, []⟩ ⟨10, [⟨"a", 4⟩]⟩ ⟨"a", 4⟩
    (by decide) (TaskManager.PoolReachable.init 10)

namespace TaskManager

/-- Modelled from the spec: one error step of the Managed Configuration
poll-interval control (§4.3): after a cycle error the interval doubles,
capped at the configured maximum; `create_managed_configuration.ts` is not
under src/. -/
def intervalOnError (maxInterval current : Nat) : Nat :=
  min (2 * current) maxInterval

/-- Modelled from the spec: the poll interval after `k` consecutive cycle
errors, starting from the configured default (§4.3, §8). -/
def intervalAfterErrors (defaultInterval maxInterval : Nat) : Nat → Nat
  | 0 => defaultInterval
  | k + 1 => intervalOnError maxInterval (intervalAfterErrors defaultInterval maxInterval k)

/-- Modelled from the spec: one success step (§4.3): the interval decays
back toward the configured default, here halving the distance to it. -/
def intervalOnSuccess (defaultInterval current : Nat) : Nat :=
  max defaultInterval ((current + defaultInterval) / 2)

theorem intervalAfterErrors_pos (d m : Nat) (hd : 0 < d) (hdm : d ≤ m)
    (k : Nat) : 0 < intervalAfterErrors d m k := by
  induction k with
  | zero => exact hd
  | succ k ih =>
    unfold intervalAfterErrors intervalOnError
    exact lt_min (by omega) (by omega)

end TaskManager

/-- C4: starting from the configured default, the poll interval after K
consecutive cycle errors doubles with each error, capped at the configured
maximum, growing strictly in K until the maximum is reached; after a
subsequent success it decays back toward the default. -/
theorem managedConfig_backoff (d m : Nat) (hd : 0 < d) (hdm : d ≤ m) :
    TaskManager.intervalAfterErrors d m 0 = d ∧
    (∀ k, TaskManager.intervalAfterErrors d m k < m →
      TaskManager.intervalAfterErrors d m k <
        TaskManager.intervalAfterErrors d m (k + 1)) ∧
    (∀ k, TaskManager.intervalAfterErrors d m k ≤ m) ∧
    (∀ c, d < c →
      d ≤ TaskManager.intervalOnSuccess d c ∧
      TaskManager.intervalOnSuccess d c < c) := by
  refine ⟨rfl, ?_, ?_, ?_⟩
  · intro k hk
    have hpos := TaskManager.intervalAfterErrors_pos d m hd hdm k
    show TaskManager.intervalAfterErrors d m k <
      TaskManager.intervalOnError m (TaskManager.intervalAfterErrors d m k)
    unfold TaskManager.intervalOnError
    exact lt_min (by omega) hk
  · intro k
    induction k with
    | zero => exact hdm
    | succ k ih =>
      show TaskManager.intervalOnError m _ ≤ m
      unfold TaskManager.intervalOnError
      exact min_le_right _ _
  · intro c hc
    unfold TaskManager.intervalOnSuccess
    refine ⟨le_max_left _ _, max_lt hc (by omega)⟩

/-- Concrete instance of C4: with default 3000 and maximum 60000, the
interval starts at the default, grows strictly after a third consecutive
error, and decays after a success at 12000. -/
theorem managedConfig_backoff_witness :
    TaskManager.intervalAfterErrors 3000 60000 0 = 3000 ∧
    TaskManager.intervalAfterErrors 3000 60000 2 <
      TaskManager.intervalAfterErrors 3000 60000 3 ∧
    TaskManager.intervalOnSuccess 3000 12000 < 12000 := by
  have h := managedConfig_backoff 3000 60000 (by decide) (by decide)
  exact ⟨h.1, h.2.1 2 (by decide), (h.2.2.2 12000 (by decide)).2⟩

namespace TaskManager

/-- Modelled from the spec: a task being executed by the Worker Pool (§4.5,
§5): its capacity cost, start time, the hard timeout from its type
definition, and whether its underlying work has actually stopped — timeout
handling must not depend on the latter. -/
structure RunningTask where
  id : String
  cost : Nat
  startedAt : Nat
  timeoutMs : Nat
  workStopped : Bool
deriving DecidableEq, Repr

/-- Modelled from the spec: the status recorded in the task document. -/
inductive TaskRunStatus where
  | running
  | failed (reason : String)
deriving DecidableEq, Repr

/-- Modelled from the spec: the execution state the timeout sweep acts on:
the in-flight tasks, their task documents, and the cancelled run handles. -/
structure ExecutionState where
  inFlight : List RunningTask
  docs : List (String × TaskRunStatus)
  cancelled : List String
deriving DecidableEq, Repr

/-- A task whose execution has exceeded its type definition's timeout. -/
def hasTimedOut (now : Nat) (t : RunningTask) : Bool :=
  t.startedAt + t.timeoutMs < now

/-- Looks up a task document's status by id. -/
def docStatus : List (String × TaskRunStatus) → String → Option TaskRunStatus
  | [], _ => none
  | (k, st) :: rest, id => if k = id then some st else docStatus rest id

/-- Marks the documents of the given ids failed with a timeout error. -/
def markTimedOut (ids : List String) :
    List (String × TaskRunStatus) → List (String × TaskRunStatus)
  | [] => []
  | (k, st) :: rest =>
    (if k ∈ ids then (k, .failed "timeout") else (k, st)) :: markTimedOut ids rest

/-- Modelled from the spec: the timeout sweep (§4.5, §5),
`task_pool.ts` not being under src/: every in-flight task past its timeout
has its run handle cancelled, its task document marked failed with a timeout
error, and its capacity cost released, regardless of whether the underlying
work actually stopped. -/
def cancelExpiredTasks (now : Nat) (st : ExecutionState) : ExecutionState :=
  let expired := st.inFlight.filter (hasTimedOut now)
  { inFlight := st.inFlight.filter (fun t => !(hasTimedOut now t)),
    docs := markTimedOut (expired.map (fun t => t.id)) st.docs,
    cancelled := st.cancelled ++ expired.map (fun t => t.id) }

/-- Sum of the capacity costs of a list of running tasks. -/
def runningCost (l : List RunningTask) : Nat :=
  (l.map (fun t => t.cost)).sum

theorem runningCost_filter_split (p : RunningTask → Bool) (l : List RunningTask) :
    runningCost (l.filter p) + runningCost (l.filter (fun t => !(p t))) =
      runningCost l := by
  induction l with
  | nil => rfl
  | cons t rest ih =>
    cases hp : p t with
    | true =>
      simp [List.filter_cons, hp, runningCost] at ih ⊢
      omega
    | false =>
      simp [List.filter_cons, hp, runningCost] at ih ⊢
      omega

theorem runningCost_mem_le (t : RunningTask) (l : List RunningTask)
    (h : t ∈ l) : t.cost ≤ runningCost l := by
  induction l with
  | nil => cases h
  | cons u rest ih =>
    rcases List.mem_cons.mp h with h1 | h2
    · subst h1
      simp only [runningCost, List.map, List.sum_cons]
      omega
    · have := ih h2
      simp only [runningCost, List.map, List.sum_cons] at this ⊢
      omega

theorem docStatus_markTimedOut (docs : List (String × TaskRunStatus))
    (ids : List String) (id : String) (s0 : TaskRunStatus)
    (hdoc : docStatus docs id = some s0) (hid : id ∈ ids) :
    docStatus (markTimedOut ids docs) id = some (.failed "timeout") := by
  induction docs with
  | nil => simp [docStatus] at hdoc
  | cons kv rest ih =>
    obtain ⟨k, st⟩ := kv
    by_cases hk : k = id
    · subst hk
      rw [markTimedOut, if_pos hid, docStatus, if_pos rfl]
    · simp only [docStatus, if_neg hk] at hdoc
      by_cases hmem : k ∈ ids
      · rw [markTimedOut, if_pos hmem, docStatus, if_neg hk]
        exact ih hdoc
      · rw [markTimedOut, if_neg hmem, docStatus, if_neg hk]
        exact ih hdoc

end TaskManager

/-- C5: every in-flight task whose execution exceeds its timeout is, by the
timeout sweep, cancelled, marked failed with a timeout error in its task
document, and removed from the in-flight set so its capacity cost is
released — regardless of whether the underlying work actually stopped. -/
theorem taskTimeout_release (now : Nat) (st : TaskManager.ExecutionState)
    (t : TaskManager.RunningTask) (s0 : TaskManager.TaskRunStatus)
    (ht : t ∈ st.inFlight) (hto : TaskManager.hasTimedOut now t = true)
    (hdoc : TaskManager.docStatus st.docs t.id = some s0) :
    t.id ∈ (TaskManager.cancelExpiredTasks now st).cancelled ∧
    TaskManager.docStatus (TaskManager.cancelExpiredTasks now st).docs t.id =
      some (.failed "timeout") ∧
    t ∉ (TaskManager.cancelExpiredTasks now st).inFlight ∧
    TaskManager.runningCost (TaskManager.cancelExpiredTasks now st).inFlight +
        t.cost ≤ TaskManager.runningCost st.inFlight := by
  have hexp : t ∈ st.inFlight.filter (TaskManager.hasTimedOut now) :=
    List.mem_filter.mpr ⟨ht, hto⟩
  have hidmem : t.id ∈ (st.inFlight.filter (TaskManager.hasTimedOut now)).map
      (fun u => u.id) :=
    List.mem_map.mpr ⟨t, hexp, rfl⟩
  refine ⟨?_, ?_, ?_, ?_⟩
  · exact List.mem_append.mpr (Or.inr hidmem)
  · exact TaskManager.docStatus_markTimedOut st.docs _ t.id s0 hdoc hidmem
  · intro hmem
    have := (List.mem_filter.mp hmem).2
    rw [hto] at this
    cases this
  · have hsplit := TaskManager.runningCost_filter_split
      (TaskManager.hasTimedOut now) st.inFlight
    have hle := TaskManager.runningCost_mem_le t
      (st.inFlight.filter (TaskManager.hasTimedOut now)) hexp
    show TaskManager.runningCost
        (st.inFlight.filter (fun u => !(TaskManager.hasTimedOut now u))) +
        t.cost ≤ TaskManager.runningCost st.inFlight
    omega

/-- Concrete instance of C5: a cost-5 task started at 0 with a 100ms timeout
is cancelled, marked failed and released by a sweep at time 200, even though
its work has not stopped. -/
theorem taskTimeout_release_witness :
    "t1" ∈ (TaskManager.cancelExpiredTasks 200
      ⟨[⟨"t1", 5, 0, 100, false⟩], [("t1", .running)], []⟩).cancelled ∧
    TaskManager.docStatus (TaskManager.cancelExpiredTasks 200
      ⟨[⟨"t1", 5, 0, 100, false⟩], [("t1", .running)], []⟩).docs "t1" =
      some (.failed "timeout") ∧
    (⟨"t1", 5, 0, 100, false⟩ : TaskManager.RunningTask) ∉
      (TaskManager.cancelExpiredTasks 200
        ⟨[⟨"t1", 5, 0, 100, false⟩], [("t1", .running)], []⟩).inFlight :=
  have h := taskTimeout_release 200
    ⟨[⟨"t1", 5, 0, 100, false⟩], [("t1", .running)], []⟩
    ⟨"t1", 5, 0, 100, false⟩ .running (by decide) (by decide) (by decide)
  ⟨h.1, h.2.1, h.2.2.1⟩

namespace TaskManager

/-- Modelled from the spec: a persisted task document as seen by the
scheduling API (§6); numeric ids are issued from a fresh-id counter. -/
structure SchedTaskDoc where
  id : Nat
  taskType : String
  params : String
  status : TaskLifecycleState
deriving DecidableEq, Repr

/-- Modelled from the spec: the scheduling store: the persisted documents
plus the next fresh id. -/
structure SchedStore where
  docs : List SchedTaskDoc
  nextId : Nat
deriving DecidableEq, Repr

/-- An existing document equivalent to the requested task and still
idle/pending (§6). -/
def matchesIdle (taskType params : String) (d : SchedTaskDoc) : Bool :=
  (d.taskType == taskType) && (d.params == params) && (d.status == .idle)

/-- Modelled from the spec: `ensureScheduled(taskType, params) -> taskId`
(§6), `task_scheduling.ts` not being under src/: returns the id of an
equivalent idle/pending task when one exists, otherwise persists a new idle
document under a fresh id. -/
def ensureScheduled (s : SchedStore) (taskType params : String) :
    Nat × SchedStore :=
  match s.docs.find? (matchesIdle taskType params) with
  | some d => (d.id, s)
  | none =>
    (s.nextId,
      { docs := s.docs ++ [{ id := s.nextId, taskType := taskType,
                             params := params, status := .idle }],
        nextId := s.nextId + 1 })

theorem find?_append_none {α : Type} (p : α → Bool) (l1 l2 : List α)
    (h : l1.find? p = none) : (l1 ++ l2).find? p = l2.find? p := by
  induction l1 with
  | nil => rfl
  | cons a rest ih =>
    by_cases ha : p a
    · rw [List.find?_cons_of_pos _ ha] at h
      cases h
    · have ha2 : p a = false := by simpa using ha
      rw [List.find?_cons_of_neg _ (by simp [ha2])] at h
      rw [List.cons_append, List.find?_cons_of_neg _ (by simp [ha2])]
      exact ih h

end TaskManager

/-- C6: `ensureScheduled` is idempotent: a second call with the same
taskType and params, while the matching task is still idle, returns the
same taskId and leaves the store unchanged — no duplicate document. -/
theorem ensureScheduled_idempotent (s : TaskManager.SchedStore)
    (taskType params : String) :
    (TaskManager.ensureScheduled
        (TaskManager.ensureScheduled s taskType params).2 taskType params).1 =
      (TaskManager.ensureScheduled s taskType params).1 ∧
    (TaskManager.ensureScheduled
        (TaskManager.ensureScheduled s taskType params).2 taskType params).2 =
      (TaskManager.ensureScheduled s taskType params).2 := by
  cases hfind : s.docs.find? (TaskManager.matchesIdle taskType params) with
  | some d =>
    simp [TaskManager.ensureScheduled, hfind]
  | none =>
    have hnew : TaskManager.matchesIdle taskType params
        (⟨s.nextId, taskType, params, .idle⟩ : TaskManager.SchedTaskDoc) = true := by
      simp [TaskManager.matchesIdle]
    have hfind2 : (s.docs ++
          [(⟨s.nextId, taskType, params, .idle⟩ : TaskManager.SchedTaskDoc)]).find?
          (TaskManager.matchesIdle taskType params) =
        some (⟨s.nextId, taskType, params, .idle⟩ : TaskManager.SchedTaskDoc) := by
      rw [TaskManager.find?_append_none _ s.docs _ hfind]
      exact List.find?_cons_of_pos _ hnew
    simp [TaskManager.ensureScheduled, hfind, hfind2]

/-- Concrete instance of C6: scheduling the same taskType and params twice
on an empty store yields the same id both times and a single document. -/
theorem ensureScheduled_idempotent_witness :
    (TaskManager.ensureScheduled
        (TaskManager.ensureScheduled ⟨[], 7⟩ "report" "p1").2 "report" "p1").1 =
      (TaskManager.ensureScheduled ⟨[], 7⟩ "report" "p1").1 ∧
    (TaskManager.ensureScheduled
        (TaskManager.ensureScheduled ⟨[], 7⟩ "report" "p1").2
        "report" "p1").2.docs.length = 1 := by
  have h := ensureScheduled_idempotent ⟨[], 7⟩ "report" "p1"
  refine ⟨h.1, ?_⟩
  rw [h.2]
  rfl

namespace TaskManager

/-- Modelled from the spec: the outcome of one task's own execution (§7):
success or a `TaskRunError` thrown by the task's logic. -/
inductive TaskRunResult where
  | success
  | failure (e : String)
deriving DecidableEq, Repr

/-- Modelled from the spec: what one poll tick is given (§4.6): the outcome
of the claim/search round trip (a cycle-level error or the claimed ids),
and each claimed task's own run outcome. -/
structure CycleInput where
  claimResult : Except String (List String)
  runOutcome : String → TaskRunResult

/-- Modelled from the spec: what one poll cycle produces (§4.6): the tasks
dispatched with their individual results, and the cycle-level error, if
any, reported to Managed Configuration. -/
structure CycleReport where
  tasksRun : List (String × TaskRunResult)
  cycleError : Option String
deriving DecidableEq, Repr

/-- Modelled from the spec: one poll cycle (§4.6), `polling_lifecycle.ts`
not being under src/: a cycle-level failure is recorded for Managed
Configuration and dispatch is skipped; otherwise every claimed task runs
and each failure is contained at the Worker Pool boundary. -/
def runCycle (c : CycleInput) : CycleReport :=
  match c.claimResult with
  | .error e => { tasksRun := [], cycleError := some e }
  | .ok ids =>
    { tasksRun := ids.map (fun i => (i, c.runOutcome i)), cycleError := none }

/-- Modelled from the spec: the polling loop (§4.6): processes every tick,
reporting cycle errors to Managed Configuration, never stopping. -/
def pollLoop (cycles : List CycleInput) : List CycleReport × List String :=
  let reports := cycles.map runCycle
  (reports, reports.filterMap (fun r => r.cycleError))

end TaskManager

/-- C7: the poll loop processes every tick — a cycle failure never stops
it; within a cycle each claimed task runs with its own outcome, so one
task's failure aborts neither the cycle nor any other task; a cycle-level
failure is reported to Managed Configuration and the loop carries on. -/
theorem pollLoop_failure_containment (cycles : List TaskManager.CycleInput) :
    (TaskManager.pollLoop cycles).1.length = cycles.length ∧
    (∀ c : TaskManager.CycleInput, ∀ ids, c.claimResult = .ok ids →
      (TaskManager.runCycle c).cycleError = none ∧
      ∀ t ∈ ids, (t, c.runOutcome t) ∈ (TaskManager.runCycle c).tasksRun) ∧
    (∀ c : TaskManager.CycleInput, ∀ e, c.claimResult = .error e →
      (TaskManager.runCycle c).cycleError = some e ∧
      (TaskManager.runCycle c).tasksRun = []) ∧
    (TaskManager.pollLoop cycles).2 = cycles.filterMap (fun c =>
      match c.claimResult with
      | .error e => some e
      | .ok _ => none) := by
  refine ⟨by simp [TaskManager.pollLoop], ?_, ?_, ?_⟩
  · intro c ids hok
    constructor
    · simp [TaskManager.runCycle, hok]
    · intro t ht
      simp only [TaskManager.runCycle, hok]
      exact List.mem_map.mpr ⟨t, ht, rfl⟩
  · intro c e herr
    constructor <;> simp [TaskManager.runCycle, herr]
  · simp only [TaskManager.pollLoop, List.filterMap_map]
    congr 1
    funext c
    cases hc : c.claimResult <;> simp [TaskManager.runCycle, hc, Function.comp]

/-- Concrete instance of C7: two ticks — one whose claim fails, one with a
failing and a succeeding task — still produce two cycle reports, the
cycle error is fed to the configuration, and the second task's success is
unaffected by the first task's failure. -/
theorem pollLoop_failure_containment_witness :
    (TaskManager.pollLoop
      [⟨.error "search failed", fun _ => .success⟩,
       ⟨.ok ["a", "b"], fun i => if i = "a" then .failure "boom" else .success⟩]).1.length = 2 ∧
    (TaskManager.pollLoop
      [⟨.error "search failed", fun _ => .success⟩,
       ⟨.ok ["a", "b"], fun i => if i = "a" then .failure "boom" else .success⟩]).2 =
      ["search failed"] ∧
    ("b", TaskManager.TaskRunResult.success) ∈
      (TaskManager.runCycle
        ⟨.ok ["a", "b"], fun i => if i = "a" then .failure "boom" else .success⟩).tasksRun := by
  have h := pollLoop_failure_containment
    [⟨.error "search failed", fun _ => .success⟩,
     ⟨.ok ["a", "b"], fun i => if i = "a" then .failure "boom" else .success⟩]
  refine ⟨h.1, ?_, ?_⟩
  · rw [h.2.2.2]
    rfl
  · have hb := (h.2.1
      ⟨.ok ["a", "b"], fun i => if i = "a" then .failure "boom" else .success⟩
      ["a", "b"] rfl).2 "b" (by simp)
    simpa using hb

/-- C10: `getTimestampRange` always returns `to = "now"`; `from` is the
minimum of the parsed rule-schedule lookback and the parsed timerange
lookback minus 24 hours, taking whichever parses when only one does, and
falls back to the string `"now-24h"` when neither parses. -/
theorem getTimestampRange_spec (parse : String → Option Int)
    (a b : String) :
    (Uptime.getTimestampRange parse a b).rangeTo = "now" ∧
    (∀ x y, parse a = some x → parse b = some y →
      (Uptime.getTimestampRange parse a b).rangeFrom =
        .num (min x (y - Uptime.hours24Ms))) ∧
    (∀ x, parse a = some x → parse b = none →
      (Uptime.getTimestampRange parse a b).rangeFrom = .num x) ∧
    (∀ y, parse a = none → parse b = some y →
      (Uptime.getTimestampRange parse a b).rangeFrom =
        .num (y - Uptime.hours24Ms)) ∧
    (parse a = none → parse b = none →
      (Uptime.getTimestampRange parse a b).rangeFrom = .str "now-24h") := by
  unfold Uptime.getTimestampRange Uptime.lodashMin
  refine ⟨?_, ?_, ?_, ?_, ?_⟩
  · rcases ha : parse a with _ | x <;> rcases hb : parse b with _ | y <;> simp [ha, hb]
  · intro x y hx hy
    simp [hx, hy]
  · intro x hx hb
    simp [hx, hb]
  · intro y ha hy
    simp [ha, hy]
  · intro ha hb
    simp [ha, hb]

/-- Concrete instance of C10: with a parser defined only on the two inputs,
the range takes the minimum of the two parsed bounds. -/
theorem getTimestampRange_spec_witness :
    (Uptime.getTimestampRange
      (fun s => if s = "now-1m" then some 1000000 else
                if s = "now-5m" then some 400000000 else none)
      "now-1m" "now-5m").rangeFrom = .num (min 1000000 (400000000 - Uptime.hours24Ms)) :=
  ((getTimestampRange_spec
      (fun s => if s = "now-1m" then some 1000000 else
                if s = "now-5m" then some 400000000 else none)
      "now-1m" "now-5m").2.1 1000000 400000000 (by decide) (by decide))

/-- C9: `deleteNotifications` returns `null` when no notification is found;
when the notification lacks its own id and deletion by the caller-supplied
id fails with status 404 it returns `null`, while any other deletion error
is rethrown; in the successful deletion cases it returns the notification
that was read. -/
theorem deleteNotifications_spec
    (read : Option String → Option String →
      Option Notifications.NotificationAlert)
    (del : String → Except Notifications.ClientError Unit)
    (id ruleAlertId : Option String) :
    (read id ruleAlertId = none →
      Notifications.deleteNotifications read del id ruleAlertId = .ok none) ∧
    (∀ n i e, read id ruleAlertId = some n → n.id = none → id = some i →
      del i = .error e →
      ((e.statusCode = 404 →
        Notifications.deleteNotifications read del id ruleAlertId = .ok none) ∧
       (e.statusCode ≠ 404 →
        Notifications.deleteNotifications read del id ruleAlertId = .error e))) ∧
    (∀ n nid, read id ruleAlertId = some n → n.id = some nid → del nid = .ok () →
      Notifications.deleteNotifications read del id ruleAlertId = .ok (some n)) ∧
    (∀ n i, read id ruleAlertId = some n → n.id = none → id = some i →
      del i = .ok () →
      Notifications.deleteNotifications read del id ruleAlertId = .ok (some n)) := by
  unfold Notifications.deleteNotifications
  refine ⟨?_, ?_, ?_, ?_⟩
  · intro h
    simp [h]
  · intro n i e hn hnid hi hdel
    subst hi
    constructor
    · intro h404
      simp [hn, hnid, hdel, h404]
    · intro h404
      simp [hn, hnid, hdel, h404]
  · intro n nid hn hnid hdel
    simp [hn, hnid, hdel]
  · intro n i hn hnid hi hdel
    subst hi
    simp [hn, hnid, hdel]

/-- Concrete instance of C9: a notification without its own id, whose
deletion by the caller-supplied id fails with a 404, yields `null`. -/
theorem deleteNotifications_spec_witness :
    Notifications.deleteNotifications
      (fun _ _ => some ⟨none, "alert"⟩)
      (fun _ => .error ⟨404⟩)
      (some "abc") none = .ok none :=
  (((deleteNotifications_spec
      (fun _ _ => some ⟨none, "alert"⟩)
      (fun _ => .error ⟨404⟩)
      (some "abc") none).2.1 ⟨none, "alert"⟩ "abc" ⟨404⟩
        rfl rfl rfl rfl).1 rfl)
